/-
Verification of the VizAgent memory/session-state subsystem.

Shallow embedding of the Python sources in `plotly_agent/`:
  - `memory/memory_manager.py`   (MemoryNote, PlotlyAgentState, add_memory_note,
                                   update_profile, add_visualization_to_history)
  - `memory/memory_consolidation.py` (calculate_similarity, are_memories_similar,
                                   deduplicate_memories, _merge_similar_notes,
                                   consolidate_session_memories)
  - `memory/context_trimmer.py`  (should_trim_conversation, trim_conversation)
  - `state_storage.py`           (get_state_file_path, save_state, load_state)

Modelling conventions:
  - Python `float` arithmetic is modelled exactly over `ℚ`; the constants
    0.6 / 0.4 are written 6/10 and 4/10.
  - Python dictionaries with a fixed shape become structures; the
    `{"notes": [...]}` memory dictionaries become `Option (List MemoryNote)`
    (`none` models a dictionary whose "notes" key is absent or `None`).
  - The wall clock (`today_iso_utc`, timestamps) is an explicit input.
  - The filesystem used by `state_storage.py` is modelled as an association
    list from file names to serialized snapshots; writing prepends and
    reading takes the first (most recent) entry, which models overwrite.
-/
import Mathlib

namespace VizAgent

/-- Structure `MemoryNote` from `memory_manager.py`: `{text, last_update_date, keywords}`.
`to_dict` / `from_dict` are bijective projections onto the same three fields,
so note dictionaries are identified with notes in the model. -/
structure MemoryNote where
  text : String
  last_update_date : String
  keywords : List String
deriving DecidableEq, Repr

/-- Profile values (`Any` in Python); only the shapes the default profile and
the claims use. -/
inductive PValue where
  | str : String → PValue
  | strList : List String → PValue
  | int : Int → PValue
  | null : PValue
deriving DecidableEq, Repr

/-- One entry of `visualization_history` (a dict in Python). -/
structure HistEntry where
  timestamp : String
  chart_type : String
  story_summary : String
  success : Bool
  code_preview : Option String
deriving DecidableEq, Repr

/-- Structure `PlotlyAgentState` from `memory_manager.py`.  `profile` is an
insertion-ordered dictionary, modelled as an association list.
`global_memory` / `session_memory` are dictionaries holding a "notes" key;
`none` models an absent or `None` "notes" entry. -/
structure PlotlyAgentState where
  user_id : String
  profile : List (String × PValue)
  global_memory_notes : Option (List MemoryNote)
  session_memory_notes : Option (List MemoryNote)
  visualization_history : List HistEntry
  system_frontmatter : String
  global_memories_md : String
  session_memories_md : String
  inject_session_memories_next_turn : Bool
deriving DecidableEq, Repr

/-- The default profile built by the `PlotlyAgentState` field factory. -/
def default_profile : List (String × PValue) :=
  [("preferred_chart_types", PValue.strList []),
   ("color_scheme", PValue.str "default"),
   ("audience", PValue.str "general"),
   ("domain", PValue.null),
   ("technical_level", PValue.str "intermediate")]

/-- Function `PlotlyAgentState.create_default(user_id)`. -/
def create_default (user_id : String) : PlotlyAgentState :=
  { user_id := user_id
    profile := default_profile
    global_memory_notes := some []
    session_memory_notes := some []
    visualization_history := []
    system_frontmatter := ""
    global_memories_md := ""
    session_memories_md := ""
    inject_session_memories_next_turn := false }

/-! ### Python string primitives

Core `String` functions in Lean are iterator-based and do not reduce in the
kernel, so the Python `str` methods used by the sources are implemented over
`List Char` (`String.data`).  They implement CPython semantics on the ASCII
range, which is all the repository's call sites and test data use. -/

/-- Python `str.strip()`: remove leading and trailing whitespace. -/
def pyStrip (s : String) : String :=
  String.mk (((s.data.dropWhile Char.isWhitespace).reverse.dropWhile Char.isWhitespace).reverse)

/-- Python `str.lower()` (ASCII case mapping). -/
def pyLower (s : String) : String :=
  String.mk (s.data.map Char.toLower)

/-- Accumulator pass for `pyWords`; `acc` is the current word, reversed. -/
def wordsAux : List Char → List Char → List String
  | [], acc => if acc = [] then [] else [String.mk acc.reverse]
  | c :: cs, acc =>
    if c.isWhitespace then
      if acc = [] then wordsAux cs []
      else String.mk acc.reverse :: wordsAux cs []
    else wordsAux cs (c :: acc)

/-- Python `str.split()` with no argument: split on runs of whitespace,
discarding empty pieces. -/
def pyWords (s : String) : List String :=
  wordsAux s.data []

/-- Lexicographic comparison of character lists (CPython's `<=` on `str`,
by code point). -/
def lexLe : List Char → List Char → Bool
  | [], _ => true
  | _ :: _, [] => false
  | c :: cs, d :: ds => if c < d then true else if d < c then false else lexLe cs ds

/-- Python string `<=`, used as the sort key comparison on ISO date strings. -/
def dateLe (a b : String) : Bool := lexLe a.data b.data

/-! ### memory_manager.py -/

/-- Keyword normalization inside `add_memory_note` (line 141):
`[k.strip().lower() for k in keywords if isinstance(k, str) and k.strip()][:5]`.
The `isinstance(k, str)` guard is vacuous here because the model types the
input as a list of strings. -/
def normalize_keywords (keywords : List String) : List String :=
  ((keywords.filter (fun k => pyStrip k ≠ "")).map (fun k => pyLower (pyStrip k))).take 5

/-- Function `add_memory_note(state, text, keywords, to_session)`.  The wall clock
`today_iso_utc()` is the explicit `today` argument.  The Python function
appends `note.to_dict()`, which holds exactly the note's three fields, so the
model appends the note itself.  `state.session_memory["notes"]` is created
when the key is absent or `None` (the `Option.getD []`). -/
def add_memory_note (state : PlotlyAgentState) (text : String) (keywords : List String)
    (to_session : Bool) (today : String) : MemoryNote × PlotlyAgentState :=
  let note : MemoryNote :=
    { text := pyStrip text, last_update_date := today, keywords := normalize_keywords keywords }
  if to_session then
    (note, { state with
      session_memory_notes := some ((state.session_memory_notes.getD []) ++ [note]) })
  else
    (note, { state with
      global_memory_notes := some ((state.global_memory_notes.getD []) ++ [note]) })

/-- Function `update_profile(state, field, value)`: assign only when `field` is an
existing key of the profile dictionary; report success as a Boolean.
Dictionary assignment keeps key order, modelled by mapping over the
association list. -/
def update_profile (state : PlotlyAgentState) (fld : String) (value : PValue) :
    Bool × PlotlyAgentState :=
  if state.profile.any (fun kv => kv.1 = fld) then
    (true, { state with
      profile := state.profile.map (fun kv => if kv.1 = fld then (kv.1, value) else kv) })
  else
    (false, state)

/-- The history-entry dictionary built by `add_visualization_to_history`
(lines 242–250).  `timestamp` is the explicit clock input.  Python's
`if code_snippet:` is false for both `None` and the empty string, and
`code_snippet[:200]` truncates to 200 characters. -/
def mkHistoryEntry (timestamp chart_type story_summary : String)
    (code_snippet : Option String) (success : Bool) : HistEntry :=
  { timestamp := timestamp
    chart_type := chart_type
    story_summary := story_summary
    success := success
    code_preview :=
      match code_snippet with
      | some s => if s = "" then none else some (String.mk (s.data.take 200))
      | none => none }

/-- Function `add_visualization_to_history`: append the entry, then if the history
exceeds 50 entries keep `history[-50:]` (the most recent 50). -/
def add_visualization_to_history (state : PlotlyAgentState) (timestamp chart_type story_summary : String)
    (code_snippet : Option String) (success : Bool) : PlotlyAgentState :=
  let history :=
    state.visualization_history ++ [mkHistoryEntry timestamp chart_type story_summary code_snippet success]
  let history := if 50 < history.length then history.drop (history.length - 50) else history
  { state with visualization_history := history }

/-! ### memory_consolidation.py -/

/-- Function `calculate_similarity(note1, note2)` (lines 17–53).  Returns `0.0`
immediately when either keyword set is empty; otherwise
`0.6 * keyword_jaccard + 0.4 * text_word_jaccard`.  Floats are modelled
exactly over `ℚ`. -/
def calculate_similarity (note1 note2 : MemoryNote) : ℚ :=
  let keywords1 := note1.keywords.toFinset
  let keywords2 := note2.keywords.toFinset
  if keywords1 = ∅ ∨ keywords2 = ∅ then 0
  else
    let overlap := (keywords1 ∩ keywords2).card
    let yunion := (keywords1 ∪ keywords2).card
    let keyword_similarity : ℚ := if 0 < yunion then (overlap : ℚ) / yunion else 0
    let words1 := (pyWords (pyLower note1.text)).toFinset
    let words2 := (pyWords (pyLower note2.text)).toFinset
    let text_overlap := (words1 ∩ words2).card
    let text_union := (words1 ∪ words2).card
    let text_similarity : ℚ := if 0 < text_union then (text_overlap : ℚ) / text_union else 0
    6/10 * keyword_similarity + 4/10 * text_similarity

/-- Function `are_memories_similar(note1, note2, threshold)`: `similarity >= threshold`. -/
def are_memories_similar (note1 note2 : MemoryNote) (threshold : ℚ) : Bool :=
  threshold ≤ calculate_similarity note1 note2

/-- Stable insertion of a note into a date-sorted list (ties keep the
existing elements after the inserted one only when strictly larger, so
earlier list elements with equal dates stay first). -/
def insertByDate (n : MemoryNote) : List MemoryNote → List MemoryNote
  | [] => [n]
  | m :: rest =>
    if dateLe n.last_update_date m.last_update_date then n :: m :: rest
    else m :: insertByDate n rest

/-- Python `sorted(notes, key=lambda n: n.last_update_date)`: a stable sort
by the date string.  Stable sorts under a total preorder are extensionally
unique, so stable insertion sort coincides with CPython's Timsort. -/
def sortByDate : List MemoryNote → List MemoryNote
  | [] => []
  | n :: rest => insertByDate n (sortByDate rest)

/-- Python `dict.fromkeys`: drop duplicates keeping first occurrences;
`seen` carries the keys already emitted. -/
def distinctFirst (seen : List String) : List String → List String
  | [] => []
  | k :: rest =>
    if k ∈ seen then distinctFirst seen rest
    else k :: distinctFirst (k :: seen) rest

/-- Function `_merge_similar_notes(notes)` (lines 124–156): most recent text and date,
union of keywords in first-seen order, capped at 5.  Python indexes
`sorted_notes[-1]`, which raises on an empty list; the function is only ever
called on non-empty clusters, and the model returns a placeholder there. -/
def merge_similar_notes (notes : List MemoryNote) : MemoryNote :=
  let sorted_notes := sortByDate notes
  let most_recent := sorted_notes.getLastD { text := "", last_update_date := "", keywords := [] }
  let all_keywords := (sorted_notes.map (·.keywords)).flatten
  let unique_keywords := (distinctFirst [] all_keywords).take 5
  { text := most_recent.text
    last_update_date := most_recent.last_update_date
    keywords := unique_keywords }

/-- The scan of `deduplicate_memories` (lines 102–119).  The Python loop
walks the date-sorted list with a `merged_indices` set: each not-yet-merged
note collects the later not-yet-merged notes similar to it, and the scan
continues on the remaining (dissimilar) notes — exactly the head/partition
recursion below.  `fuel` is the termination measure; it starts at the list
length and each step consumes one element of it while the list shrinks by at
least one, so the `0` branch is unreachable from `deduplicate_memories`. -/
def dedupGo (threshold : ℚ) : ℕ → List MemoryNote → List MemoryNote
  | _, [] => []
  | 0, l => l
  | fuel + 1, note :: rest =>
    let similar := rest.filter (fun m => are_memories_similar note m threshold)
    let dissimilar := rest.filter (fun m => !(are_memories_similar note m threshold))
    (if similar = [] then note else merge_similar_notes (note :: similar))
      :: dedupGo threshold fuel dissimilar

/-- Function `deduplicate_memories(notes, threshold=0.6)` (lines 76–121). -/
def deduplicate_memories (notes : List MemoryNote) (threshold : ℚ) : List MemoryNote :=
  if notes = [] then []
  else dedupGo threshold notes.length (sortByDate notes)

/-- The sub-sequence of `dedupGo`'s output consisting of the notes kept
without merging (singleton clusters).  Used to state the amended form of the
consolidation fixed-point claim. -/
def dedupSinglesGo (threshold : ℚ) : ℕ → List MemoryNote → List MemoryNote
  | _, [] => []
  | 0, _ => []
  | fuel + 1, note :: rest =>
    let similar := rest.filter (fun m => are_memories_similar note m threshold)
    let dissimilar := rest.filter (fun m => !(are_memories_similar note m threshold))
    (if similar = [] then [note] else []) ++ dedupSinglesGo threshold fuel dissimilar

/-- Unmerged survivors of `deduplicate_memories`. -/
def dedup_singles (notes : List MemoryNote) (threshold : ℚ) : List MemoryNote :=
  if notes = [] then []
  else dedupSinglesGo threshold notes.length (sortByDate notes)

/-- The statistics dictionary returned by `consolidate_session_memories`.
`merged_count` is a Python `int` subtraction, modelled over `ℤ`. -/
structure ConsolidationStats where
  before_count : ℕ
  after_count : ℕ
  merged_count : ℤ
  session_notes_added : ℕ
deriving DecidableEq, Repr

/-- Function `consolidate_session_memories(state)` (lines 163–213): concatenate
global and session notes, deduplicate at threshold 0.6, store the result as
the global notes, reset session memory to `{"notes": []}`, and report
statistics.  `MemoryNote.from_dict`/`to_dict` convert between notes and their
dictionaries bijectively, so they vanish in the model. -/
def consolidate_session_memories (state : PlotlyAgentState) :
    ConsolidationStats × PlotlyAgentState :=
  let session_notes := state.session_memory_notes.getD []
  let global_notes := state.global_memory_notes.getD []
  let before_count := global_notes.length + session_notes.length
  let all_notes := global_notes ++ session_notes
  let deduplicated := deduplicate_memories all_notes (6/10)
  let state' := { state with
    global_memory_notes := some deduplicated
    session_memory_notes := some [] }
  let after_count := deduplicated.length
  (⟨before_count, after_count, (before_count : ℤ) - (after_count : ℤ), session_notes.length⟩,
   state')

/-! ### context_trimmer.py

Only the transcript component is modelled.  With `preserve_context` the
Python `trim_conversation` additionally writes one summary note into session
memory via `add_memory_note` and sets `inject_session_memories_next_turn`;
that side effect never influences the returned
`(trimmed_history, removed_count)` pair, which is all the claims about the
trimmer quantify over. -/

/-- One transcript message, a `Dict[str, str]`; `m.get('role')` /
`m.get('content')` may be absent, hence `Option`. -/
structure Message where
  role : Option String
  content : Option String
deriving DecidableEq, Repr

/-- Predicate `m.get('role') == 'user'`. -/
def isUserMessage (m : Message) : Bool := m.role = some "user"

/-- Constant `DEFAULT_MAX_TURNS` (context_trimmer.py line 16). -/
def DEFAULT_MAX_TURNS : ℕ := 10

/-- Constant `MIN_TURNS_TO_KEEP` (context_trimmer.py line 17, commented
"Always keep at least this many").  Defined in the source but never read. -/
def MIN_TURNS_TO_KEEP : ℕ := 3

/-- Function `should_trim_conversation(history, max_turns)` (lines 24–40):
true iff the number of `'user'`-role messages exceeds `max_turns`. -/
def should_trim_conversation (conversation_history : List Message) (max_turns : ℕ) : Bool :=
  let user_messages := conversation_history.filter isUserMessage
  max_turns < user_messages.length

/-- The `user_indices` comprehension of `trim_conversation` (lines 65–68). -/
def userIndices (conversation_history : List Message) : List ℕ :=
  (conversation_history.enum.filter (fun p => isUserMessage p.2)).map Prod.fst

/-- Function `trim_conversation(history, state, max_turns)` (lines 43–94), transcript
component: if no trim is needed, the input and 0; otherwise cut at
`user_indices[-max_turns]` and return the kept suffix together with the
number of discarded messages.  Python's negative index `-max_turns` resolves
to `len - max_turns`, except that `-0` is `0` (the first user index). -/
def trim_conversation (conversation_history : List Message) (max_turns : ℕ) :
    List Message × ℕ :=
  if !(should_trim_conversation conversation_history max_turns) then
    (conversation_history, 0)
  else
    let user_indices := userIndices conversation_history
    if user_indices.length ≤ max_turns then (conversation_history, 0)
    else
      let pos := if max_turns = 0 then 0 else user_indices.length - max_turns
      let cutoff_index := user_indices.getD pos 0
      (conversation_history.drop cutoff_index,
       (conversation_history.take cutoff_index).length)

/-! ### state_storage.py

The states directory is modelled as an association list from file names to
serialized snapshots.  `save_state` prepends (a write overwrites any older
entry because lookup returns the first match); `json.dump`/`json.load`
round-trip the snapshot dictionary exactly (its leaves are strings, lists,
booleans and null). -/

/-- The dictionary produced by `PlotlyAgentState.to_dict` (the JSON
snapshot): exactly six keys. -/
structure StateDict where
  user_id : String
  profile : List (String × PValue)
  global_memory_notes : Option (List MemoryNote)
  session_memory_notes : Option (List MemoryNote)
  visualization_history : List HistEntry
  inject_session_memories_next_turn : Bool
deriving DecidableEq, Repr

/-- Function `PlotlyAgentState.to_dict`. -/
def state_to_dict (s : PlotlyAgentState) : StateDict :=
  ⟨s.user_id, s.profile, s.global_memory_notes, s.session_memory_notes,
   s.visualization_history, s.inject_session_memories_next_turn⟩

/-- Function `PlotlyAgentState.from_dict`: the six persisted fields are read back
(all present in a `to_dict` snapshot, so the `.get` defaults never fire);
the rendered-string fields are reset to `""`. -/
def state_from_dict (d : StateDict) : PlotlyAgentState :=
  { user_id := d.user_id
    profile := d.profile
    global_memory_notes := d.global_memory_notes
    session_memory_notes := d.session_memory_notes
    visualization_history := d.visualization_history
    system_frontmatter := ""
    global_memories_md := ""
    session_memories_md := ""
    inject_session_memories_next_turn := d.inject_session_memories_next_turn }

/-- The sanitization inside `get_state_file_path` (line 60):
`"".join(c for c in user_id if c.isalnum() or c in ('_', '-'))`. -/
def sanitize_user_id (user_id : String) : String :=
  String.mk (user_id.data.filter (fun c => c.isAlphanum || c = '_' || c = '-'))

/-- Function `get_state_file_path(user_id)` (lines 46–63): the sanitized id plus
`.json` (the states directory itself is the modelled store). -/
def get_state_file_path (user_id : String) : String :=
  sanitize_user_id user_id ++ ".json"

/-- The states directory: file name ↦ snapshot, newest first. -/
abbrev StateStore := List (String × StateDict)

/-- First (most recent) entry under a path. -/
def lookupFile (store : StateStore) (path : String) : Option StateDict :=
  match store with
  | [] => none
  | (p, d) :: rest => if p = path then some d else lookupFile rest path

/-- Function `save_state(state)` (lines 66–94): write the full `to_dict` snapshot at
the sanitized path and report success (I/O failure is outside the model). -/
def save_state (store : StateStore) (s : PlotlyAgentState) : StateStore × Bool :=
  ((get_state_file_path s.user_id, state_to_dict s) :: store, true)

/-- Function `load_state(user_id, create_if_missing=True)` (lines 97–138): read the
file at the sanitized path and rebuild the state via `from_dict`; when the
file is absent, create, save and return a default state (or report `None`
under strict lookup). -/
def load_state (store : StateStore) (user_id : String) (create_if_missing : Bool) :
    Option PlotlyAgentState × StateStore :=
  match lookupFile store (get_state_file_path user_id) with
  | some d => (some (state_from_dict d), store)
  | none =>
    if create_if_missing then
      let st := create_default user_id
      (some st, (save_state store st).1)
    else (none, store)

/-! ### Specification-side definitions (for refinement statements) -/

/-- Modelled from the spec: the Jaccard overlap of two finite sets,
`|s ∩ t| / |s ∪ t|`, taken as 0 on two empty sets. -/
def jaccard (s t : Finset String) : ℚ :=
  if (s ∪ t).card = 0 then 0 else ((s ∩ t).card : ℚ) / ((s ∪ t).card : ℚ)

/-- Modelled from the spec: the similarity formula as the claim states it —
`0.6 × (keyword-set Jaccard) + 0.4 × (lower-cased word-set Jaccard)`, with a
component equal to 0 when its sets are empty but the other component still
contributing. -/
def spec_similarity (note1 note2 : MemoryNote) : ℚ :=
  6/10 * jaccard note1.keywords.toFinset note2.keywords.toFinset
  + 4/10 * jaccard (pyWords (pyLower note1.text)).toFinset (pyWords (pyLower note2.text)).toFinset

/-! ### Helper definitions for theorem statements -/

/-- Dictionary read `profile[k]`, first matching key. -/
def lookupProfile (profile : List (String × PValue)) (k : String) : Option PValue :=
  match profile with
  | [] => none
  | (k', v) :: rest => if k' = k then some v else lookupProfile rest k

/-- Argument tuple of one `add_visualization_to_history` call. -/
structure VisCall where
  timestamp : String
  chart_type : String
  story_summary : String
  code_snippet : Option String
  success : Bool
deriving DecidableEq, Repr

/-- The history entry a call appends. -/
def entryOfCall (c : VisCall) : HistEntry :=
  mkHistoryEntry c.timestamp c.chart_type c.story_summary c.code_snippet c.success

/-- Run a sequence of `add_visualization_to_history` calls. -/
def applyVisCalls (s : PlotlyAgentState) : List VisCall → PlotlyAgentState
  | [] => s
  | c :: cs =>
    applyVisCalls
      (add_visualization_to_history s c.timestamp c.chart_type c.story_summary c.code_snippet c.success) cs

/-! ### Helper lemmas -/

theorem div_cast_bounds (a b : ℕ) (hab : a ≤ b) :
    0 ≤ (if 0 < b then (a : ℚ) / b else 0) ∧ (if 0 < b then (a : ℚ) / b else 0) ≤ 1 := by
  split_ifs with h
  · have hb : (0 : ℚ) < b := by exact_mod_cast h
    constructor
    · positivity
    · rw [div_le_one hb]
      exact_mod_cast hab
  · exact ⟨le_refl 0, zero_le_one⟩

theorem card_inter_le_card_union (s t : Finset String) :
    (s ∩ t).card ≤ (s ∪ t).card :=
  Finset.card_le_card (Finset.inter_subset_union)

theorem if_div_eq_if_zero (a b : ℕ) :
    (if 0 < b then (a : ℚ) / b else 0) = (if b = 0 then 0 else (a : ℚ) / b) := by
  split_ifs with h h' h' <;> first | rfl | omega

theorem calculate_similarity_bounds (note1 note2 : MemoryNote) :
    0 ≤ calculate_similarity note1 note2 ∧ calculate_similarity note1 note2 ≤ 1 := by
  simp only [calculate_similarity]
  by_cases hc : note1.keywords.toFinset = ∅ ∨ note2.keywords.toFinset = ∅
  · rw [if_pos hc]
    exact ⟨le_refl 0, zero_le_one⟩
  · rw [if_neg hc]
    obtain ⟨hk0, hk1⟩ :=
      div_cast_bounds _ _ (card_inter_le_card_union note1.keywords.toFinset note2.keywords.toFinset)
    obtain ⟨ht0, ht1⟩ :=
      div_cast_bounds _ _ (card_inter_le_card_union (pyWords (pyLower note1.text)).toFinset
        (pyWords (pyLower note2.text)).toFinset)
    constructor <;> linarith

theorem calculate_similarity_comm (note1 note2 : MemoryNote) :
    calculate_similarity note1 note2 = calculate_similarity note2 note1 := by
  simp only [calculate_similarity]
  rw [Finset.inter_comm note1.keywords.toFinset, Finset.union_comm note1.keywords.toFinset,
    Finset.inter_comm (pyWords (pyLower note1.text)).toFinset,
    Finset.union_comm (pyWords (pyLower note1.text)).toFinset]
  have hcond : (note1.keywords.toFinset = ∅ ∨ note2.keywords.toFinset = ∅)
      = (note2.keywords.toFinset = ∅ ∨ note1.keywords.toFinset = ∅) := propext or_comm
  simp only [hcond]

theorem calculate_similarity_eq_spec (note1 note2 : MemoryNote)
    (h1 : note1.keywords.toFinset ≠ ∅) (h2 : note2.keywords.toFinset ≠ ∅) :
    calculate_similarity note1 note2 = spec_similarity note1 note2 := by
  simp only [calculate_similarity, spec_similarity, jaccard]
  rw [if_neg (by tauto), if_div_eq_if_zero, if_div_eq_if_zero]

theorem calculate_similarity_zero (note1 note2 : MemoryNote)
    (h : note1.keywords.toFinset = ∅ ∨ note2.keywords.toFinset = ∅) :
    calculate_similarity note1 note2 = 0 := by
  simp only [calculate_similarity]
  rw [if_pos h]

/-! ### Claim C2 -/

/-- Claim C2, counterexample.  The claim states that when a note has no
keywords only the keyword component vanishes and the text component still
contributes.  On `note1 = {text "hello", keywords []}` and
`note2 = {text "hello", keywords ["a"]}` the claimed formula gives
`0.6·0 + 0.4·1 = 2/5`, but `calculate_similarity` returns `0` outright
(early return at memory_consolidation.py lines 35–36). -/
theorem C2_counterexample :
    calculate_similarity ⟨"hello", "2024-01-01", []⟩ ⟨"hello", "2024-01-01", ["a"]⟩ = 0 ∧
    spec_similarity ⟨"hello", "2024-01-01", []⟩ ⟨"hello", "2024-01-01", ["a"]⟩ = 2/5 ∧
    (0 : ℚ) ≠ 2/5 := by
  refine ⟨?_, ?_, by norm_num⟩
  · exact calculate_similarity_zero _ _ (by left; decide)
  · simp only [spec_similarity, jaccard]
    rw [if_neg (by decide), if_neg (by decide)]
    rw [show ((List.toFinset ([] : List String)) ∩ ["a"].toFinset).card = 0 from by decide,
      show ((List.toFinset ([] : List String)) ∪ ["a"].toFinset).card = 1 from by decide,
      show ((pyWords (pyLower "hello")).toFinset ∩ (pyWords (pyLower "hello")).toFinset).card = 1
        from by decide,
      show ((pyWords (pyLower "hello")).toFinset ∪ (pyWords (pyLower "hello")).toFinset).card = 1
        from by decide]
    norm_num

/-- Claim C2, amended.  Here `calculate_similarity` is within `[0,1]`, symmetric
and deterministic (a pure function); when **both** notes have at least one
keyword it equals `0.6 × keyword-Jaccard + 0.4 × lower-cased-word-Jaccard`;
when either note has no keywords it returns `0` outright — the text
component does **not** contribute in that case. -/
theorem C2_similarity_formula (note1 note2 : MemoryNote) :
    (0 ≤ calculate_similarity note1 note2 ∧ calculate_similarity note1 note2 ≤ 1) ∧
    calculate_similarity note1 note2 = calculate_similarity note2 note1 ∧
    (note1.keywords.toFinset ≠ ∅ → note2.keywords.toFinset ≠ ∅ →
      calculate_similarity note1 note2 = spec_similarity note1 note2) ∧
    (note1.keywords.toFinset = ∅ ∨ note2.keywords.toFinset = ∅ →
      calculate_similarity note1 note2 = 0) :=
  ⟨calculate_similarity_bounds note1 note2, calculate_similarity_comm note1 note2,
   fun h1 h2 => calculate_similarity_eq_spec note1 note2 h1 h2,
   fun h => calculate_similarity_zero note1 note2 h⟩

/-- Witness for `C2_similarity_formula` at concrete notes. -/
theorem C2_similarity_formula_witness :
    calculate_similarity ⟨"bar chart", "2024-01-01", ["bar"]⟩ ⟨"bar plots", "2024-01-02", ["bar", "plot"]⟩ =
      spec_similarity ⟨"bar chart", "2024-01-01", ["bar"]⟩ ⟨"bar plots", "2024-01-02", ["bar", "plot"]⟩ ∧
    calculate_similarity ⟨"same text", "2024-01-01", []⟩ ⟨"same text", "2024-01-01", ["k"]⟩ = 0 :=
  ⟨(C2_similarity_formula ⟨"bar chart", "2024-01-01", ["bar"]⟩
      ⟨"bar plots", "2024-01-02", ["bar", "plot"]⟩).2.2.1 (by decide) (by decide),
   (C2_similarity_formula ⟨"same text", "2024-01-01", []⟩
      ⟨"same text", "2024-01-01", ["k"]⟩).2.2.2 (by decide)⟩

/-! ### Claim C3 -/

/-- Claim C3, counterexample.  Function `add_memory_note` does not deduplicate
keywords: input `["Bar", "bar"]` yields the keyword list `["bar", "bar"]`,
which contains the same keyword twice (memory_manager.py line 141 has no
dedup step). -/
theorem C3_counterexample :
    (add_memory_note (create_default "u") "note" ["Bar", "bar"] true "2024-01-01").1.keywords
        = ["bar", "bar"] ∧
    ¬ ((add_memory_note (create_default "u") "note" ["Bar", "bar"] true "2024-01-01").1.keywords.Nodup) := by
  exact ⟨by decide, by decide⟩

/-- Claim C3, amended.  The keywords of the note returned by
`add_memory_note` are the input keywords with entries blank after trimming
dropped, each remaining entry trimmed and lower-cased, capped at 5, with
order preserved — but duplicates are **not** removed. -/
theorem C3_keywords_normalized (state : PlotlyAgentState) (text : String)
    (keywords : List String) (to_session : Bool) (today : String) :
    (add_memory_note state text keywords to_session today).1.keywords
        = normalize_keywords keywords ∧
    (add_memory_note state text keywords to_session today).1.keywords.length ≤ 5 ∧
    (add_memory_note state text keywords to_session today).1.keywords.Sublist
      ((keywords.filter (fun k => pyStrip k ≠ "")).map (fun k => pyLower (pyStrip k))) ∧
    ∀ x ∈ (add_memory_note state text keywords to_session today).1.keywords,
      ∃ k ∈ keywords, x = pyLower (pyStrip k) := by
  have hfst : (add_memory_note state text keywords to_session today).1.keywords
      = normalize_keywords keywords := by
    cases to_session <;> rfl
  refine ⟨hfst, ?_, ?_, ?_⟩
  · rw [hfst, normalize_keywords, List.length_take]
    exact min_le_left _ _
  · rw [hfst, normalize_keywords]
    exact List.take_sublist _ _
  · intro x hx
    rw [hfst, normalize_keywords] at hx
    have hx' := (List.take_sublist _ _).mem hx
    obtain ⟨k, hk, hke⟩ := List.mem_map.1 hx'
    exact ⟨k, (List.mem_filter.1 hk).1, hke.symm⟩

/-- Witness for `C3_keywords_normalized` at a concrete input. -/
theorem C3_keywords_normalized_witness :
    ∃ k ∈ [" A ", "b"], "a" = pyLower (pyStrip k) :=
  (C3_keywords_normalized (create_default "u") "t" [" A ", "b"] true "2024-01-01").2.2.2
    "a" (by decide)

/-! ### Claim C4 -/

/-- Claim C4, code bug.  Constant `MIN_TURNS_TO_KEEP = 3` is declared with the comment
"Always keep at least this many" (context_trimmer.py line 17) and the spec
states the floor, but `trim_conversation` never consults it: with
`max_turns = 1` and a transcript of four user turns, trimming keeps a single
user turn — strictly below the floor of 3. -/
theorem C4_floor_violated :
    trim_conversation
        [⟨some "user", some "m1"⟩, ⟨some "user", some "m2"⟩,
         ⟨some "user", some "m3"⟩, ⟨some "user", some "m4"⟩] 1
      = ([⟨some "user", some "m4"⟩], 3) ∧
    ((trim_conversation
        [⟨some "user", some "m1"⟩, ⟨some "user", some "m2"⟩,
         ⟨some "user", some "m3"⟩, ⟨some "user", some "m4"⟩] 1).1.filter
          isUserMessage).length < MIN_TURNS_TO_KEEP := by
  exact ⟨by decide, by decide⟩

/-! ### Claim C5 -/

/-- Claim C5.  Function `consolidate_session_memories` unconditionally resets session
memory to `{"notes": []}`, and its statistics satisfy
`after_count = |deduplicated combined list|`,
`before_count = |global notes| + |session notes|` of the input state, and
`merged_count = before_count − after_count`. -/
theorem C5_consolidation_stats (state : PlotlyAgentState) :
    (consolidate_session_memories state).2.session_memory_notes = some [] ∧
    (consolidate_session_memories state).1.before_count =
      (state.global_memory_notes.getD []).length + (state.session_memory_notes.getD []).length ∧
    (consolidate_session_memories state).1.after_count =
      (deduplicate_memories
        ((state.global_memory_notes.getD []) ++ (state.session_memory_notes.getD [])) (6/10)).length ∧
    (consolidate_session_memories state).1.merged_count =
      ((consolidate_session_memories state).1.before_count : ℤ) -
        ((consolidate_session_memories state).1.after_count : ℤ) :=
  ⟨rfl, rfl, rfl, rfl⟩

/-! ### Claim C10 -/

/-- Claim C10.  Function `add_memory_note` is frame-correct: with `to_session = true`
it appends exactly the returned note to the session notes and leaves the
global memory, profile, user id, visualization history and reinjection flag
unchanged; with `to_session = false` it appends exactly the returned note to
the global notes and leaves session memory and all other fields unchanged. -/
theorem C10_add_note_frame (state : PlotlyAgentState) (text : String)
    (keywords : List String) (today : String) :
    ((add_memory_note state text keywords true today).2.session_memory_notes =
        some ((state.session_memory_notes.getD []) ++
          [(add_memory_note state text keywords true today).1]) ∧
      (add_memory_note state text keywords true today).2.global_memory_notes =
        state.global_memory_notes ∧
      (add_memory_note state text keywords true today).2.profile = state.profile ∧
      (add_memory_note state text keywords true today).2.user_id = state.user_id ∧
      (add_memory_note state text keywords true today).2.visualization_history =
        state.visualization_history ∧
      (add_memory_note state text keywords true today).2.inject_session_memories_next_turn =
        state.inject_session_memories_next_turn) ∧
    ((add_memory_note state text keywords false today).2.global_memory_notes =
        some ((state.global_memory_notes.getD []) ++
          [(add_memory_note state text keywords false today).1]) ∧
      (add_memory_note state text keywords false today).2.session_memory_notes =
        state.session_memory_notes ∧
      (add_memory_note state text keywords false today).2.profile = state.profile ∧
      (add_memory_note state text keywords false today).2.user_id = state.user_id ∧
      (add_memory_note state text keywords false today).2.visualization_history =
        state.visualization_history ∧
      (add_memory_note state text keywords false today).2.inject_session_memories_next_turn =
        state.inject_session_memories_next_turn) :=
  ⟨⟨rfl, rfl, rfl, rfl, rfl, rfl⟩, ⟨rfl, rfl, rfl, rfl, rfl, rfl⟩⟩

/-! ### Claim C8 -/

theorem lookupProfile_map_update (l : List (String × PValue)) (fld : String) (v : PValue)
    (h : fld ∈ l.map Prod.fst) :
    lookupProfile (l.map (fun kv => if kv.1 = fld then (kv.1, v) else kv)) fld = some v := by
  induction l with
  | nil => simp at h
  | cons kv rest ih =>
    by_cases hk : kv.1 = fld
    · rw [List.map_cons, if_pos hk, lookupProfile, if_pos hk]
    · simp only [List.map_cons, List.mem_cons] at h
      rw [List.map_cons, if_neg hk, lookupProfile, if_neg hk]
      rcases h with h | h
      · exact absurd h.symm hk
      · exact ih h

theorem lookupProfile_map_other (l : List (String × PValue)) (fld k : String) (v : PValue)
    (hne : k ≠ fld) :
    lookupProfile (l.map (fun kv => if kv.1 = fld then (kv.1, v) else kv)) k
      = lookupProfile l k := by
  induction l with
  | nil => rfl
  | cons kv rest ih =>
    by_cases hk : kv.1 = fld
    · rw [List.map_cons, if_pos hk, lookupProfile, lookupProfile]
      have hkk : ¬ kv.1 = k := fun hkk => hne (hkk ▸ hk)
      rw [if_neg hkk, if_neg hkk]
      exact ih
    · rw [List.map_cons, if_neg hk, lookupProfile, lookupProfile]
      by_cases hkk : kv.1 = k
      · rw [if_pos hkk, if_pos hkk]
      · rw [if_neg hkk, if_neg hkk]
        exact ih

theorem keys_map_update (l : List (String × PValue)) (fld : String) (v : PValue) :
    (l.map (fun kv => if kv.1 = fld then (kv.1, v) else kv)).map Prod.fst
      = l.map Prod.fst := by
  induction l with
  | nil => rfl
  | cons kv rest ih =>
    by_cases hk : kv.1 = fld <;> simp [hk, ih]

theorem profile_any_of_mem {l : List (String × PValue)} {fld : String}
    (h : fld ∈ l.map Prod.fst) : l.any (fun kv => kv.1 = fld) = true := by
  obtain ⟨kv, hkv, he⟩ := List.mem_map.1 h
  exact List.any_eq_true.2 ⟨kv, hkv, by simp [he]⟩

theorem profile_not_any_of_not_mem {l : List (String × PValue)} {fld : String}
    (h : fld ∉ l.map Prod.fst) : ¬ (l.any (fun kv => kv.1 = fld) = true) := by
  intro hany
  obtain ⟨kv, hkv, he⟩ := List.any_eq_true.1 hany
  exact h (List.mem_map.2 ⟨kv, hkv, by simpa using he⟩)

/-- Claim C8.  Function `update_profile` succeeds exactly on recognized fields: when
`field` is an existing profile key it returns `true`, sets that key to the
new value, keeps every other key's value and the key set itself unchanged
(no silent field creation), and touches no other part of the state; when
`field` is unknown it returns `false` and the whole state is unchanged.  It
is a total function, so it never throws. -/
theorem C8_update_profile (state : PlotlyAgentState) (fld : String) (value : PValue) :
    (fld ∈ state.profile.map Prod.fst →
      (update_profile state fld value).1 = true ∧
      lookupProfile (update_profile state fld value).2.profile fld = some value ∧
      (update_profile state fld value).2.profile.map Prod.fst = state.profile.map Prod.fst ∧
      (∀ k, k ≠ fld → lookupProfile (update_profile state fld value).2.profile k
          = lookupProfile state.profile k) ∧
      (update_profile state fld value).2.user_id = state.user_id ∧
      (update_profile state fld value).2.global_memory_notes = state.global_memory_notes ∧
      (update_profile state fld value).2.session_memory_notes = state.session_memory_notes ∧
      (update_profile state fld value).2.visualization_history = state.visualization_history ∧
      (update_profile state fld value).2.inject_session_memories_next_turn
        = state.inject_session_memories_next_turn) ∧
    (fld ∉ state.profile.map Prod.fst →
      update_profile state fld value = (false, state)) := by
  constructor
  · intro h
    have hany := profile_any_of_mem h
    rw [update_profile, if_pos hany]
    exact ⟨rfl, lookupProfile_map_update _ _ _ h, keys_map_update _ _ _,
      fun k hk => lookupProfile_map_other _ _ _ _ hk, rfl, rfl, rfl, rfl, rfl⟩
  · intro h
    have hany := profile_not_any_of_not_mem h
    rw [update_profile, if_neg hany]

/-- Witness for `C8_update_profile`: the spec's scenario on a default
state — updating `"audience"` succeeds and sticks, updating
`"not_a_field"` fails and leaves the state untouched. -/
theorem C8_update_profile_witness :
    (update_profile (create_default "u") "audience" (PValue.str "executives")).1 = true ∧
    lookupProfile (update_profile (create_default "u") "audience"
        (PValue.str "executives")).2.profile "audience" = some (PValue.str "executives") ∧
    update_profile (create_default "u") "not_a_field" (PValue.int 1)
      = (false, create_default "u") :=
  ⟨((C8_update_profile (create_default "u") "audience" (PValue.str "executives")).1
      (by decide)).1,
   ((C8_update_profile (create_default "u") "audience" (PValue.str "executives")).1
      (by decide)).2.1,
   (C8_update_profile (create_default "u") "not_a_field" (PValue.int 1)).2 (by decide)⟩

/-! ### Claim C9 -/

/-- Claim C9.  Function `save_state` writes the snapshot under a file name whose stem
keeps only the alphanumeric, underscore and hyphen characters of `user_id`
(so traversal characters like `/` and `.` are stripped), and `load_state`
with the same `user_id` finds that file and returns a state equivalent to
the saved one on all six persisted fields. -/
theorem C9_save_load_roundtrip (store : StateStore) (s : PlotlyAgentState) (cim : Bool) :
    (∀ c ∈ (sanitize_user_id s.user_id).data, (c.isAlphanum || c = '_' || c = '-') = true) ∧
    ∃ t, (load_state (save_state store s).1 s.user_id cim).1 = some t ∧
      t.user_id = s.user_id ∧
      t.profile = s.profile ∧
      t.global_memory_notes = s.global_memory_notes ∧
      t.session_memory_notes = s.session_memory_notes ∧
      t.visualization_history = s.visualization_history ∧
      t.inject_session_memories_next_turn = s.inject_session_memories_next_turn := by
  constructor
  · intro c hc
    exact (List.mem_filter.1 hc).2
  · refine ⟨state_from_dict (state_to_dict s), ?_, rfl, rfl, rfl, rfl, rfl, rfl⟩
    simp [load_state, save_state, lookupFile]

/-- Witness for `C9_save_load_roundtrip` at the spec's scenario input
`user_id = "demo user/../x"` (which sanitizes to `"demouserx"`). -/
theorem C9_save_load_roundtrip_witness :
    sanitize_user_id "demo user/../x" = "demouserx" ∧
    ('d'.isAlphanum || 'd' = '_' || 'd' = '-') = true ∧
    ∃ t, (load_state (save_state [] (create_default "demo user/../x")).1
        "demo user/../x" true).1 = some t ∧
      t.user_id = "demo user/../x" ∧
      t.profile = (create_default "demo user/../x").profile ∧
      t.global_memory_notes = (create_default "demo user/../x").global_memory_notes ∧
      t.session_memory_notes = (create_default "demo user/../x").session_memory_notes ∧
      t.visualization_history = (create_default "demo user/../x").visualization_history ∧
      t.inject_session_memories_next_turn
        = (create_default "demo user/../x").inject_session_memories_next_turn :=
  ⟨by decide,
   (C9_save_load_roundtrip [] (create_default "demo user/../x") true).1 'd' (by decide),
   (C9_save_load_roundtrip [] (create_default "demo user/../x") true).2⟩

/-! ### Claim C6 -/

/-- The truncation step of `add_visualization_to_history` (lines 254–256):
keep `history[-50:]` when the length exceeds 50. -/
def capHistory (l : List HistEntry) : List HistEntry :=
  if 50 < l.length then l.drop (l.length - 50) else l

theorem add_visualization_eq_cap (s : PlotlyAgentState)
    (timestamp chart_type story_summary : String) (code_snippet : Option String)
    (success : Bool) :
    add_visualization_to_history s timestamp chart_type story_summary code_snippet success
      = { s with visualization_history :=
            capHistory (s.visualization_history
              ++ [mkHistoryEntry timestamp chart_type story_summary code_snippet success]) } :=
  rfl

theorem capHistory_length (l : List HistEntry) :
    (capHistory l).length = min l.length 50 := by
  rw [capHistory]
  split_ifs with h
  · rw [List.length_drop]
    omega
  · omega

theorem capHistory_append (x y : List HistEntry) :
    capHistory (capHistory x ++ y) = capHistory (x ++ y) := by
  by_cases hx : 50 < x.length
  · have hcx : capHistory x = x.drop (x.length - 50) := if_pos hx
    rw [hcx]
    by_cases hy : y = []
    · subst hy
      rw [List.append_nil, List.append_nil, ← hcx, capHistory, if_neg]
      rw [hcx, List.length_drop]
      omega
    · have hylen : 0 < y.length := List.length_pos.2 hy
      have hlen1 : (x.drop (x.length - 50) ++ y).length = 50 + y.length := by
        rw [List.length_append, List.length_drop]
        omega
      have hlen2 : (x ++ y).length = x.length + y.length := List.length_append _ _
      rw [capHistory, capHistory, if_pos (by omega), if_pos (by omega), hlen1, hlen2]
      rw [List.drop_append_eq_append_drop, List.drop_append_eq_append_drop, List.drop_drop,
        List.length_drop]
      have e1 : x.length - 50 + (50 + y.length - 50) = x.length + y.length - 50 := by omega
      have e2 : 50 + y.length - 50 - (x.length - (x.length - 50))
          = x.length + y.length - 50 - x.length := by omega
      rw [e1, e2]
  · have hcx : capHistory x = x := if_neg hx
    rw [hcx]

theorem applyVisCalls_eq (es : List VisCall) (hne : es ≠ []) :
    ∀ s : PlotlyAgentState, (applyVisCalls s es).visualization_history
      = capHistory (s.visualization_history ++ es.map entryOfCall) := by
  induction es with
  | nil => exact absurd rfl hne
  | cons c rest ih =>
    intro s
    rw [applyVisCalls]
    by_cases hr : rest = []
    · subst hr
      rw [applyVisCalls, add_visualization_eq_cap]
      rfl
    · rw [ih hr, add_visualization_eq_cap]
      show capHistory (capHistory (s.visualization_history ++ [entryOfCall c])
          ++ rest.map entryOfCall) = _
      rw [capHistory_append, List.append_assoc]
      rfl

/-- Claim C6.  The visualization history is bounded by 50: starting from a
state whose history is within the bound, it stays within the bound after
every prefix of any call sequence; from an arbitrary state the bound holds
after every call; and once more than 50 entries have been appended the
surviving entries are exactly the 50 most recently appended ones (FIFO
eviction of the oldest). -/
theorem C6_history_bound (s : PlotlyAgentState) (es : List VisCall) :
    (s.visualization_history.length ≤ 50 →
      ∀ k, (applyVisCalls s (es.take k)).visualization_history.length ≤ 50) ∧
    (∀ k, 1 ≤ k → k ≤ es.length →
      (applyVisCalls s (es.take k)).visualization_history.length ≤ 50) ∧
    (50 < es.length →
      (applyVisCalls s es).visualization_history
        = (es.map entryOfCall).drop (es.length - 50)) := by
  have hboundAux : ∀ (l : List VisCall), l ≠ [] →
      (applyVisCalls s l).visualization_history.length ≤ 50 := by
    intro l hl
    rw [applyVisCalls_eq l hl s, capHistory_length]
    omega
  refine ⟨?_, ?_, ?_⟩
  · intro hs k
    by_cases hk : es.take k = []
    · rw [hk]
      exact hs
    · exact hboundAux _ hk
  · intro k hk1 hk2
    have hne : es.take k ≠ [] := by
      have : (es.take k).length = min k es.length := List.length_take _ _
      intro hnil
      rw [hnil] at this
      simp at this
      omega
    exact hboundAux _ hne
  · intro hlen
    have hne : es ≠ [] := by
      intro h
      rw [h] at hlen
      simp at hlen
    rw [applyVisCalls_eq es hne s, capHistory]
    have hm : (es.map entryOfCall).length = es.length := List.length_map _ _
    have hl : (s.visualization_history ++ es.map entryOfCall).length
        = s.visualization_history.length + es.length := by
      rw [List.length_append, hm]
    rw [if_pos (by omega), hl]
    have e1 : s.visualization_history.length + es.length - 50
        = s.visualization_history.length + (es.length - 50) := by omega
    rw [e1, List.drop_append]

/-- Witness for `C6_history_bound`: after 51 appends to a fresh state the
history is exactly the last 50 entries appended, and after 5 appends the
bound holds. -/
theorem C6_history_bound_witness :
    (applyVisCalls (create_default "u")
        (List.replicate 51 ⟨"t", "bar", "s", none, true⟩)).visualization_history
      = ((List.replicate 51 (⟨"t", "bar", "s", none, true⟩ : VisCall)).map entryOfCall).drop
          ((List.replicate 51 (⟨"t", "bar", "s", none, true⟩ : VisCall)).length - 50) ∧
    (applyVisCalls (create_default "u")
        ((List.replicate 51 (⟨"t", "bar", "s", none, true⟩ : VisCall)).take 5)).visualization_history.length
      ≤ 50 :=
  ⟨(C6_history_bound (create_default "u") (List.replicate 51 ⟨"t", "bar", "s", none, true⟩)).2.2
      (by decide),
   (C6_history_bound (create_default "u") (List.replicate 51 ⟨"t", "bar", "s", none, true⟩)).2.1
      5 (by decide) (by decide)⟩

/-! ### Claim C7 -/

/-- Recursive form of the `user_indices` comprehension, carrying the running
index offset; proven equal to `userIndices` below. -/
def userIdxsFrom (n : ℕ) : List Message → List ℕ
  | [] => []
  | m :: rest =>
    if isUserMessage m then n :: userIdxsFrom (n + 1) rest else userIdxsFrom (n + 1) rest

theorem enumFrom_user_idxs (l : List Message) :
    ∀ n : ℕ, ((List.enumFrom n l).filter (fun p => isUserMessage p.2)).map Prod.fst
      = userIdxsFrom n l := by
  induction l with
  | nil => intro n; rfl
  | cons m rest ih =>
    intro n
    by_cases hm : isUserMessage m <;>
      simp [List.enumFrom, List.filter_cons, hm, userIdxsFrom, ih]

theorem userIndices_eq (l : List Message) : userIndices l = userIdxsFrom 0 l := by
  rw [userIndices, show l.enum = List.enumFrom 0 l from rfl, enumFrom_user_idxs]

theorem userIdxsFrom_shift (l : List Message) :
    ∀ n : ℕ, userIdxsFrom n l = (userIdxsFrom 0 l).map (fun i => i + n) := by
  induction l with
  | nil => intro n; rfl
  | cons m rest ih =>
    intro n
    by_cases hm : isUserMessage m
    · rw [userIdxsFrom, if_pos hm, userIdxsFrom, if_pos hm, ih (n + 1), ih 1,
        List.map_cons, List.map_map]
      have harg : ((fun i : ℕ => i + n) ∘ fun i : ℕ => i + 1) = fun i : ℕ => i + (n + 1) :=
        funext (fun i => by simp [Function.comp]; omega)
      rw [harg]
      norm_num
    · rw [userIdxsFrom, if_neg hm, userIdxsFrom, if_neg hm, ih (n + 1), ih 1, List.map_map]
      have harg : ((fun i : ℕ => i + n) ∘ fun i : ℕ => i + 1) = fun i : ℕ => i + (n + 1) :=
        funext (fun i => by simp [Function.comp]; omega)
      rw [harg]

theorem userIdxs_length (l : List Message) :
    (userIdxsFrom 0 l).length = l.countP isUserMessage := by
  induction l with
  | nil => rfl
  | cons m rest ih =>
    by_cases hm : isUserMessage m <;>
      simp [userIdxsFrom, hm, userIdxsFrom_shift rest 1, List.countP_cons, ih]

theorem getD_map_add_one (xs : List ℕ) :
    ∀ k : ℕ, k < xs.length → (xs.map (fun i => i + 1)).getD k 0 = xs.getD k 0 + 1 := by
  induction xs with
  | nil => intro k h; simp at h
  | cons x xs ih =>
    intro k h
    cases k with
    | zero => rfl
    | succ k =>
      rw [List.map_cons, List.getD_cons_succ, List.getD_cons_succ]
      exact ih k (by simpa using h)

theorem user_idx_drop (l : List Message) :
    ∀ k : ℕ, k < (userIdxsFrom 0 l).length →
      ((l.drop ((userIdxsFrom 0 l).getD k 0)).countP isUserMessage
          = (userIdxsFrom 0 l).length - k) ∧
      ∃ m r, l.drop ((userIdxsFrom 0 l).getD k 0) = m :: r ∧ isUserMessage m = true := by
  induction l with
  | nil => intro k h; simp [userIdxsFrom] at h
  | cons msg rest ih =>
    intro k h
    by_cases hm : isUserMessage msg
    · have hA : userIdxsFrom 0 (msg :: rest)
          = 0 :: (userIdxsFrom 0 rest).map (fun i => i + 1) := by
        rw [userIdxsFrom, if_pos hm, userIdxsFrom_shift rest 1]
      rw [hA] at h ⊢
      cases k with
      | zero =>
        refine ⟨?_, msg, rest, rfl, hm⟩
        rw [List.getD_cons_zero, List.drop_zero, List.countP_cons]
        simp [hm, userIdxs_length]
      | succ k =>
        have hk : k < (userIdxsFrom 0 rest).length := by
          simpa using h
        rw [List.getD_cons_succ, getD_map_add_one _ k hk, List.drop_succ_cons]
        obtain ⟨hcnt, hex⟩ := ih k hk
        refine ⟨?_, hex⟩
        rw [hcnt]
        simp
    · have hA : userIdxsFrom 0 (msg :: rest)
          = (userIdxsFrom 0 rest).map (fun i => i + 1) := by
        rw [userIdxsFrom, if_neg hm, userIdxsFrom_shift rest 1]
      rw [hA] at h ⊢
      have hk : k < (userIdxsFrom 0 rest).length := by simpa using h
      rw [getD_map_add_one _ k hk, List.drop_succ_cons]
      obtain ⟨hcnt, hex⟩ := ih k hk
      refine ⟨?_, hex⟩
      rw [hcnt]
      simp

/-- Claim C7.  Trimming is idempotent: applying `trim_conversation` to the
transcript returned by a first call, with the same `max_turns` and no turns
added in between, returns that transcript unchanged with 0 removed; for
every positive `max_turns` this is because `should_trim_conversation` is
false on the once-trimmed transcript (at the degenerate `max_turns = 0` the
second call is still an unchanged/0 no-op, though `should_trim_conversation`
remains true there). -/
theorem C7_trim_idempotent (conv : List Message) (max_turns : ℕ) :
    trim_conversation (trim_conversation conv max_turns).1 max_turns
      = ((trim_conversation conv max_turns).1, 0) ∧
    (1 ≤ max_turns →
      should_trim_conversation (trim_conversation conv max_turns).1 max_turns = false) := by
  by_cases hst : should_trim_conversation conv max_turns = true
  · have hgt : max_turns < conv.countP isUserMessage := by
      have := hst
      rw [should_trim_conversation] at this
      simpa [← List.countP_eq_length_filter] using this
    have hlen0 : max_turns < (userIdxsFrom 0 conv).length := by
      rw [userIdxs_length]
      exact hgt
    by_cases hmt : max_turns = 0
    · subst hmt
      obtain ⟨hcnt, m, r, hdrop, hm⟩ := user_idx_drop conv 0 hlen0
      have hfirst : trim_conversation conv 0
          = (conv.drop ((userIdxsFrom 0 conv).getD 0 0),
             (conv.take ((userIdxsFrom 0 conv).getD 0 0)).length) := by
        simp only [trim_conversation, hst, Bool.not_true, userIndices_eq,
          if_neg (not_le.2 hlen0)]
        rfl
      rw [hfirst]
      refine ⟨?_, fun h10 => absurd h10 (by norm_num)⟩
      show trim_conversation (conv.drop ((userIdxsFrom 0 conv).getD 0 0)) 0 = _
      rw [hdrop]
      have hstk : should_trim_conversation (m :: r) 0 = true := by
        rw [should_trim_conversation]
        simp [List.filter_cons, hm]
      have hlenk : ¬ ((userIdxsFrom 0 (m :: r)).length ≤ 0) := by
        rw [userIdxs_length]
        simp [List.countP_cons, hm]
      have hexp : userIdxsFrom 0 (m :: r) = 0 :: userIdxsFrom 1 r := by
        rw [userIdxsFrom, if_pos hm]
      simp only [trim_conversation, hstk, Bool.not_true, userIndices_eq,
        if_neg hlenk]
      simp [hexp]
    · have hposlt : (userIdxsFrom 0 conv).length - max_turns
          < (userIdxsFrom 0 conv).length := by omega
      obtain ⟨hcnt, m, r, hdrop, hm⟩ := user_idx_drop conv _ hposlt
      have hp : (if max_turns = 0 then 0 else (userIdxsFrom 0 conv).length - max_turns)
          = (userIdxsFrom 0 conv).length - max_turns := if_neg hmt
      have hfirst : trim_conversation conv max_turns
          = (conv.drop ((userIdxsFrom 0 conv).getD
                ((userIdxsFrom 0 conv).length - max_turns) 0),
             (conv.take ((userIdxsFrom 0 conv).getD
                ((userIdxsFrom 0 conv).length - max_turns) 0)).length) := by
        simp only [trim_conversation, hst, Bool.not_true, userIndices_eq,
          if_neg (not_le.2 hlen0), hp]
        rfl
      have hcnt' : ((conv.drop ((userIdxsFrom 0 conv).getD
          ((userIdxsFrom 0 conv).length - max_turns) 0)).countP isUserMessage) = max_turns := by
        rw [hcnt]
        omega
      have hstk : should_trim_conversation (conv.drop ((userIdxsFrom 0 conv).getD
          ((userIdxsFrom 0 conv).length - max_turns) 0)) max_turns = false := by
        rw [should_trim_conversation]
        apply decide_eq_false
        rw [← List.countP_eq_length_filter, hcnt']
        omega
      rw [hfirst]
      constructor
      · simp only [trim_conversation, hstk, Bool.not_false]
        rw [if_pos trivial]
      · intro _
        exact hstk
  · have hfalse : should_trim_conversation conv max_turns = false := by
      revert hst
      cases should_trim_conversation conv max_turns <;> simp
    have h1 : trim_conversation conv max_turns = (conv, 0) := by
      simp [trim_conversation, hfalse]
    rw [h1]
    exact ⟨h1, fun _ => hfalse⟩

/-- Witness for `C7_trim_idempotent` on a concrete transcript
(four user turns, `max_turns = 1`). -/
theorem C7_trim_idempotent_witness :
    should_trim_conversation
      (trim_conversation
        [(⟨some "user", some "a"⟩ : Message), ⟨some "assistant", some "b"⟩,
         ⟨some "user", some "c"⟩, ⟨some "user", some "d"⟩] 1).1 1 = false :=
  (C7_trim_idempotent
    [(⟨some "user", some "a"⟩ : Message), ⟨some "assistant", some "b"⟩,
     ⟨some "user", some "c"⟩, ⟨some "user", some "d"⟩] 1).2 (by decide)

/-! ### Claim C1 -/

theorem dedupSinglesGo_subset (threshold : ℚ) :
    ∀ (fuel : ℕ) (l : List MemoryNote) (x : MemoryNote),
      x ∈ dedupSinglesGo threshold fuel l → x ∈ l := by
  intro fuel
  induction fuel with
  | zero =>
    intro l x hx
    cases l <;> simp [dedupSinglesGo] at hx
  | succ fuel ih =>
    intro l x hx
    cases l with
    | nil => simp [dedupSinglesGo] at hx
    | cons note rest =>
      rw [dedupSinglesGo] at hx
      simp only [List.mem_append] at hx
      rcases hx with hx | hx
      · by_cases hs : rest.filter (fun m => are_memories_similar note m threshold) = []
        · rw [if_pos hs] at hx
          simp at hx
          simp [hx]
        · rw [if_neg hs] at hx
          simp at hx
      · have hmem := ih _ x hx
        exact List.mem_cons_of_mem _ (List.mem_of_mem_filter hmem)

theorem dedupSinglesGo_pairwise (threshold : ℚ) :
    ∀ (fuel : ℕ) (l : List MemoryNote),
      List.Pairwise (fun a b => calculate_similarity a b < threshold)
        (dedupSinglesGo threshold fuel l) := by
  intro fuel
  induction fuel with
  | zero =>
    intro l
    cases l <;> simp [dedupSinglesGo]
  | succ fuel ih =>
    intro l
    cases l with
    | nil => simp [dedupSinglesGo]
    | cons note rest =>
      rw [dedupSinglesGo]
      by_cases hs : rest.filter (fun m => are_memories_similar note m threshold) = []
      · rw [if_pos hs]
        simp only [List.singleton_append]
        refine List.pairwise_cons.2 ⟨?_, ih _⟩
        intro y hy
        have hyd := dedupSinglesGo_subset threshold fuel _ y hy
        have hfy := List.of_mem_filter hyd
        have : ¬ (threshold ≤ calculate_similarity note y) := by
          simpa [are_memories_similar] using hfy
        exact not_le.1 this
      · rw [if_neg hs]
        simpa using ih _

theorem dedupSinglesGo_sublist (threshold : ℚ) :
    ∀ (fuel : ℕ) (l : List MemoryNote),
      (dedupSinglesGo threshold fuel l).Sublist (dedupGo threshold fuel l) := by
  intro fuel
  induction fuel with
  | zero =>
    intro l
    cases l with
    | nil => simp [dedupSinglesGo, dedupGo]
    | cons note rest => simp [dedupSinglesGo, dedupGo]
  | succ fuel ih =>
    intro l
    cases l with
    | nil => simp [dedupSinglesGo, dedupGo]
    | cons note rest =>
      rw [dedupSinglesGo, dedupGo]
      by_cases hs : rest.filter (fun m => are_memories_similar note m threshold) = []
      · rw [if_pos hs, if_pos hs]
        simpa using List.Sublist.cons₂ note (ih _)
      · rw [if_neg hs, if_neg hs]
        exact List.Sublist.cons _ (ih _)

/-- The three-note family making consolidation non-idempotent: `noteA` is
not similar to `noteB` (similarity 2/5), but both are similar to the
keyword-rich `noteC` (similarity 7/10 each). -/
def noteA : MemoryNote := ⟨"t", "2024-01-01", ["a", "b"]⟩

def noteB : MemoryNote := ⟨"t", "2024-01-02", ["c", "d"]⟩

def noteC : MemoryNote := ⟨"t", "2024-01-03", ["a", "b", "c", "d"]⟩

/-- A state whose global memory holds the three notes above. -/
def fixedPointCounterState : PlotlyAgentState :=
  { create_default "u" with global_memory_notes := some [noteA, noteB, noteC] }

theorem simAB : calculate_similarity noteA noteB = 2/5 := by
  simp only [calculate_similarity]
  rw [if_neg (by decide),
    show (noteA.keywords.toFinset ∩ noteB.keywords.toFinset).card = 0 from by decide,
    show (noteA.keywords.toFinset ∪ noteB.keywords.toFinset).card = 4 from by decide,
    show ((pyWords (pyLower noteA.text)).toFinset ∩ (pyWords (pyLower noteB.text)).toFinset).card = 1
      from by decide,
    show ((pyWords (pyLower noteA.text)).toFinset ∪ (pyWords (pyLower noteB.text)).toFinset).card = 1
      from by decide]
  norm_num

theorem simAC : calculate_similarity noteA noteC = 7/10 := by
  simp only [calculate_similarity]
  rw [if_neg (by decide),
    show (noteA.keywords.toFinset ∩ noteC.keywords.toFinset).card = 2 from by decide,
    show (noteA.keywords.toFinset ∪ noteC.keywords.toFinset).card = 4 from by decide,
    show ((pyWords (pyLower noteA.text)).toFinset ∩ (pyWords (pyLower noteC.text)).toFinset).card = 1
      from by decide,
    show ((pyWords (pyLower noteA.text)).toFinset ∪ (pyWords (pyLower noteC.text)).toFinset).card = 1
      from by decide]
  norm_num

theorem simCB : calculate_similarity noteC noteB = 7/10 := by
  simp only [calculate_similarity]
  rw [if_neg (by decide),
    show (noteC.keywords.toFinset ∩ noteB.keywords.toFinset).card = 2 from by decide,
    show (noteC.keywords.toFinset ∪ noteB.keywords.toFinset).card = 4 from by decide,
    show ((pyWords (pyLower noteC.text)).toFinset ∩ (pyWords (pyLower noteB.text)).toFinset).card = 1
      from by decide,
    show ((pyWords (pyLower noteC.text)).toFinset ∪ (pyWords (pyLower noteB.text)).toFinset).card = 1
      from by decide]
  norm_num

theorem simAB_not : are_memories_similar noteA noteB (6/10) = false := by
  apply decide_eq_false
  rw [simAB]
  norm_num

theorem simAC_yes : are_memories_similar noteA noteC (6/10) = true := by
  apply decide_eq_true
  rw [simAC]
  norm_num

theorem dedup_eval : deduplicate_memories [noteA, noteB, noteC] (6/10) = [noteC, noteB] := by
  have hf1 : List.filter (fun m => are_memories_similar noteA m (6/10)) [noteB, noteC]
      = [noteC] := by
    simp only [List.filter_cons, List.filter_nil, simAB_not, simAC_yes]
    decide
  have hf2 : List.filter (fun m => !(are_memories_similar noteA m (6/10))) [noteB, noteC]
      = [noteB] := by
    simp only [List.filter_cons, List.filter_nil, simAB_not, simAC_yes]
    decide
  rw [deduplicate_memories, if_neg (by decide),
    show sortByDate [noteA, noteB, noteC] = [noteA, noteB, noteC] from by decide,
    show ([noteA, noteB, noteC] : List MemoryNote).length = 2 + 1 from rfl,
    dedupGo, hf1, hf2, if_neg (by decide),
    show merge_similar_notes [noteA, noteC] = noteC from by decide,
    show (2 : ℕ) = 1 + 1 from rfl, dedupGo]
  rw [List.filter_nil, List.filter_nil, if_pos rfl]
  rfl

/-- Claim C1, counterexample.  A single application of consolidation is not a
fixed point of its own similarity relation: starting from a global memory
holding `noteA`, `noteB`, `noteC` (and an empty session), consolidation
merges `noteA` with `noteC` (keyword union `a,b,c,d`) and keeps `noteB`,
and the two surviving notes have similarity `7/10 ≥ 0.6`. -/
theorem C1_counterexample :
    ¬ List.Pairwise (fun a b => calculate_similarity a b < 6/10)
      ((consolidate_session_memories fixedPointCounterState).2.global_memory_notes.getD []) := by
  have hres : (consolidate_session_memories fixedPointCounterState).2.global_memory_notes.getD []
      = [noteC, noteB] := by
    show deduplicate_memories ([noteA, noteB, noteC] ++ []) (6/10) = [noteC, noteB]
    rw [List.append_nil]
    exact dedup_eval
  rw [hres]
  intro hp
  have h := (List.pairwise_cons.1 hp).1 noteB (by simp)
  rw [simCB] at h
  norm_num at h

/-- Claim C1, amended.  Consolidation is not a fixed point of the similarity
relation in general (see the counterexample: a merged note's enlarged
keyword set can push it over the threshold with another survivor); what
does hold is that every note the deduplication pass keeps *without merging*
survives into the new global notes, and any two such unmerged survivors
have similarity strictly below the 0.6 threshold. -/
theorem C1_consolidation_singles (state : PlotlyAgentState) :
    (dedup_singles ((state.global_memory_notes.getD [])
        ++ (state.session_memory_notes.getD [])) (6/10)).Sublist
      ((consolidate_session_memories state).2.global_memory_notes.getD []) ∧
    List.Pairwise (fun a b => calculate_similarity a b < 6/10)
      (dedup_singles ((state.global_memory_notes.getD [])
        ++ (state.session_memory_notes.getD [])) (6/10)) := by
  constructor
  · show (dedup_singles _ _).Sublist
      (deduplicate_memories ((state.global_memory_notes.getD [])
        ++ (state.session_memory_notes.getD [])) (6/10))
    rw [dedup_singles, deduplicate_memories]
    by_cases h : (state.global_memory_notes.getD [])
        ++ (state.session_memory_notes.getD []) = []
    · rw [if_pos h, if_pos h]
    · rw [if_neg h, if_neg h]
      exact dedupSinglesGo_sublist _ _ _
  · rw [dedup_singles]
    split_ifs with h
    · simp
    · exact dedupSinglesGo_pairwise _ _ _

end VizAgent
